import Mathlib

/-!
Verification of the deal-ingestion and deduplicated-broadcast pipeline of
`src/bot.py` (repository difiorealex/telegram-bot).

The Python source is shallowly embedded: strings are lists of characters,
the PostgreSQL tables are lists of row records, the Telegram send calls are
trace actions driven by an explicit failure oracle, and MD5 is implemented
in full over natural numbers reduced modulo 2^32.
-/

/-- Character strings of the Python source, modelled as lists of characters. -/
abbrev Str := List Char

/- ### Link canonicalizer: AmazonScraperAdvanced.create_affiliate_link (bot.py 249-262) -/

/-- The character class `[A-Z0-9]` of the two ASIN regexes in bot.py 251 and 253. -/
def isAsinChar (c : Char) : Bool :=
  (decide ('A' ≤ c) && decide (c ≤ 'Z')) || (decide ('0' ≤ c) && decide (c ≤ '9'))

/-- The full alphanumeric class `[A-Za-z0-9]`, used only to state the claim's
    literal reading ("10-character alphanumeric product identifier"). -/
def isAlnumChar (c : Char) : Bool :=
  isAsinChar c || (decide ('a' ≤ c) && decide (c ≤ 'z'))

/-- Match a literal pattern at the front of the subject, returning the remainder. -/
def dropLit : Str → Str → Option Str
  | [], s => some s
  | _ :: _, [] => none
  | l :: ls, c :: cs => if c = l then dropLit ls cs else none

/-- Match exactly `n` consecutive characters of class `cls`, returning them. -/
def takeClass (cls : Char → Bool) : Nat → Str → Option Str
  | 0, _ => some []
  | _ + 1, [] => none
  | n + 1, c :: cs => if cls c then (takeClass cls n cs).map (fun r => c :: r) else none

/-- Leftmost-match search for a pattern of the shape `lit([cls]\x7b n\x7d)`, exactly
    as Python's `re.search` resolves the two ASIN regexes: try every start
    position from the left, capture the class characters after the literal. -/
def reSearch (cls : Char → Bool) (n : Nat) (lit : Str) : Str → Option Str
  | [] =>
      match dropLit lit [] with
      | some rest => takeClass cls n rest
      | none => none
  | c :: cs =>
      match dropLit lit (c :: cs) with
      | some rest =>
          match takeClass cls n rest with
          | some a => some a
          | none => reSearch cls n lit cs
      | none => reSearch cls n lit cs

/-- The product-identifier extraction of bot.py 251-253: first the `/dp/` shape,
    then the `/gp/product/` shape, identifier class `[A-Z0-9]`, width 10. -/
def extractAsin (url : Str) : Option Str :=
  match reSearch isAsinChar 10 ("/dp/".toList) url with
  | some a => some a
  | none => reSearch isAsinChar 10 ("/gp/product/".toList) url

/-- The configured affiliate tag (bot.py 25, the default of env var AMAZON_TAG). -/
def AMAZON_TAG : Str := "botaffari-21".toList

/-- Shallow embedding of `AmazonScraperAdvanced.create_affiliate_link` (bot.py 249-262). -/
def create_affiliate_link (amazon_url : Str) : Str :=
  match extractAsin amazon_url with
  | some asin =>
      "https://www.amazon.it/dp/".toList ++ asin ++ "/?tag=".toList ++ AMAZON_TAG
        ++ "&linkCode=ogi&th=1&psc=1".toList
  | none =>
      if amazon_url.contains '?' then amazon_url ++ "&tag=".toList ++ AMAZON_TAG
      else amazon_url ++ "?tag=".toList ++ AMAZON_TAG

/-- Claim C2 taken at its word: the same link builder, but extracting any
    10-character alphanumeric identifier (class `[A-Za-z0-9]`), which is what
    "10-character alphanumeric product identifier" literally denotes. -/
def claim_affiliate_link (amazon_url : Str) : Str :=
  match (match reSearch isAlnumChar 10 ("/dp/".toList) amazon_url with
         | some a => some a
         | none => reSearch isAlnumChar 10 ("/gp/product/".toList) amazon_url) with
  | some asin =>
      "https://www.amazon.it/dp/".toList ++ asin ++ "/?tag=".toList ++ AMAZON_TAG
        ++ "&linkCode=ogi&th=1&psc=1".toList
  | none =>
      if amazon_url.contains '?' then amazon_url ++ "&tag=".toList ++ AMAZON_TAG
      else amazon_url ++ "?tag=".toList ++ AMAZON_TAG

/-- `leadsWith p s` holds when `p` occurs at the front of `s`. -/
def leadsWith : Str → Str → Bool
  | [], _ => true
  | _ :: _, [] => false
  | p :: ps, c :: cs => (p == c) && leadsWith ps cs

/-- `containsSeq p s` holds when `p` occurs contiguously inside `s`. -/
def containsSeq (p : Str) : Str → Bool
  | [] => leadsWith p []
  | c :: cs => leadsWith p (c :: cs) || containsSeq p cs

example :
    create_affiliate_link ("https://marketplace.example/dp/B09B8V1LZ3".toList)
      = "https://www.amazon.it/dp/B09B8V1LZ3/?tag=botaffari-21&linkCode=ogi&th=1&psc=1".toList := by
  decide

example :
    create_affiliate_link ("https://marketplace.example/x?ref=1".toList)
      = "https://marketplace.example/x?ref=1&tag=botaffari-21".toList := by
  decide

example :
    claim_affiliate_link ("https://www.amazon.it/dp/b09b8v1lz3".toList)
      = "https://www.amazon.it/dp/b09b8v1lz3/?tag=botaffari-21&linkCode=ogi&th=1&psc=1".toList := by
  decide

theorem dropLit_eq {lit : Str} : ∀ {s rest : Str}, dropLit lit s = some rest → s = lit ++ rest := by
  induction lit with
  | nil =>
    intro s rest h
    simp [dropLit] at h
    simp [h]
  | cons l ls ih =>
    intro s rest h
    cases s with
    | nil => simp [dropLit] at h
    | cons c cs =>
      by_cases hc : c = l
      · simp [dropLit, hc] at h
        subst hc
        simpa using ih h
      · simp [dropLit, hc] at h

theorem takeClass_eq {cls : Char → Bool} :
    ∀ {n : Nat} {s a : Str}, takeClass cls n s = some a →
      a.length = n ∧ a.all cls = true ∧ ∃ rest, s = a ++ rest := by
  intro n
  induction n with
  | zero =>
    intro s a h
    simp [takeClass] at h
    subst h
    exact ⟨rfl, rfl, s, rfl⟩
  | succ n ih =>
    intro s a h
    cases s with
    | nil => simp [takeClass] at h
    | cons c cs =>
      by_cases hc : cls c
      · simp [takeClass, hc] at h
        obtain ⟨r, hr, ha⟩ := h
        obtain ⟨hl, hall, rest, hrest⟩ := ih hr
        subst ha
        exact ⟨by simp [hl], by simp [hc, hall], rest, by simp [hrest]⟩
      · simp [takeClass, hc] at h

theorem reSearch_some {cls : Char → Bool} {n : Nat} {lit : Str} :
    ∀ {s a : Str}, reSearch cls n lit s = some a →
      a.length = n ∧ a.all cls = true ∧ ∃ pre post, s = pre ++ (lit ++ a) ++ post := by
  intro s
  induction s with
  | nil =>
    intro a h
    unfold reSearch at h
    cases hd : dropLit lit [] with
    | none => rw [hd] at h; exact absurd h (by simp)
    | some rest =>
      rw [hd] at h
      have hs := dropLit_eq hd
      obtain ⟨hl, hall, r2, hr2⟩ := takeClass_eq h
      refine ⟨hl, hall, [], r2, ?_⟩
      simp only [List.nil_append]
      rw [List.append_assoc, ← hr2, ← hs]
  | cons c cs ih =>
    intro a h
    unfold reSearch at h
    cases hd : dropLit lit (c :: cs) with
    | some rest =>
      rw [hd] at h
      dsimp only at h
      cases ht : takeClass cls n rest with
      | some b =>
        rw [ht] at h
        dsimp only at h
        have hb : b = a := by injection h
        subst hb
        have hs := dropLit_eq hd
        obtain ⟨hl, hall, r2, hr2⟩ := takeClass_eq ht
        refine ⟨hl, hall, [], r2, ?_⟩
        simp only [List.nil_append]
        rw [List.append_assoc, ← hr2, ← hs]
      | none =>
        rw [ht] at h
        dsimp only at h
        obtain ⟨hl, hall, pre, post, hs⟩ := ih h
        exact ⟨hl, hall, c :: pre, post, by rw [hs]; rfl⟩
    | none =>
      rw [hd] at h
      dsimp only at h
      obtain ⟨hl, hall, pre, post, hs⟩ := ih h
      exact ⟨hl, hall, c :: pre, post, by rw [hs]; rfl⟩

/-- C2 (amended: the identifier class is uppercase alphanumeric `[A-Z0-9]`, as in
    the source regexes): `create_affiliate_link` never fails; when a 10-character
    uppercase-alphanumeric identifier occurs in one of the two known path shapes,
    the result is the canonical `dp/` URL carrying the configured affiliate tag and
    the delivery-optimization parameters, all input query parameters discarded;
    otherwise the original URL is returned with the tag appended via `&` when a
    query string is present and `?` otherwise; and the claim's concrete example
    contains `/dp/B09B8V1LZ3` and the tag as a query parameter. -/
theorem C2_affiliate_link_shape (url : Str) :
    (∀ a, extractAsin url = some a →
        a.length = 10 ∧ a.all isAsinChar = true ∧
        (∃ pre post, url = pre ++ ("/dp/".toList ++ a) ++ post ∨
                     url = pre ++ ("/gp/product/".toList ++ a) ++ post) ∧
        create_affiliate_link url =
          "https://www.amazon.it/dp/".toList ++ a ++ "/?tag=".toList ++ AMAZON_TAG
            ++ "&linkCode=ogi&th=1&psc=1".toList) ∧
    (extractAsin url = none →
        create_affiliate_link url =
          (if url.contains '?' then url ++ "&tag=".toList ++ AMAZON_TAG
           else url ++ "?tag=".toList ++ AMAZON_TAG)) ∧
    containsSeq ("/dp/B09B8V1LZ3".toList)
      (create_affiliate_link ("https://marketplace.example/dp/B09B8V1LZ3".toList)) = true ∧
    containsSeq ("tag=botaffari-21".toList)
      (create_affiliate_link ("https://marketplace.example/dp/B09B8V1LZ3".toList)) = true := by
  refine ⟨?_, ?_, by decide, by decide⟩
  · intro a ha
    have hx : reSearch isAsinChar 10 ("/dp/".toList) url = some a ∨
              reSearch isAsinChar 10 ("/gp/product/".toList) url = some a := by
      unfold extractAsin at ha
      cases hdp : reSearch isAsinChar 10 ("/dp/".toList) url with
      | some b =>
        rw [hdp] at ha
        dsimp only at ha
        exact Or.inl ha
      | none =>
        rw [hdp] at ha
        dsimp only at ha
        exact Or.inr ha
    rcases hx with hx | hx
    · obtain ⟨hl, hall, pre, post, hs⟩ := reSearch_some hx
      exact ⟨hl, hall, ⟨pre, post, Or.inl hs⟩, by simp [create_affiliate_link, ha]⟩
    · obtain ⟨hl, hall, pre, post, hs⟩ := reSearch_some hx
      exact ⟨hl, hall, ⟨pre, post, Or.inr hs⟩, by simp [create_affiliate_link, ha]⟩
  · intro h
    simp [create_affiliate_link, h]

/-- C2 counterexample: the claim as stated is false on the code. The URL
    `https://www.amazon.it/dp/b09b8v1lz3` contains a 10-character alphanumeric
    identifier in the `/dp/` path shape, so the claim requires the canonical
    `dp/` output; the code's regexes accept only uppercase `[A-Z0-9]`, so the
    code instead appends the tag to the original URL. -/
theorem C2_counterexample :
    claim_affiliate_link ("https://www.amazon.it/dp/b09b8v1lz3".toList)
      = "https://www.amazon.it/dp/b09b8v1lz3/?tag=botaffari-21&linkCode=ogi&th=1&psc=1".toList ∧
    create_affiliate_link ("https://www.amazon.it/dp/b09b8v1lz3".toList)
      = "https://www.amazon.it/dp/b09b8v1lz3?tag=botaffari-21".toList ∧
    create_affiliate_link ("https://www.amazon.it/dp/b09b8v1lz3".toList)
      ≠ claim_affiliate_link ("https://www.amazon.it/dp/b09b8v1lz3".toList) :=
  ⟨by decide, by decide, by decide⟩

/-- Witness for C2: the amended theorem applied at the claim's two concrete
    example URLs, one with a recognizable identifier and one without. -/
theorem C2_affiliate_link_shape_witness :
    (("B09B8V1LZ3".toList).length = 10 ∧ ("B09B8V1LZ3".toList).all isAsinChar = true ∧
      (∃ pre post,
          "https://marketplace.example/dp/B09B8V1LZ3".toList
            = pre ++ ("/dp/".toList ++ "B09B8V1LZ3".toList) ++ post ∨
          "https://marketplace.example/dp/B09B8V1LZ3".toList
            = pre ++ ("/gp/product/".toList ++ "B09B8V1LZ3".toList) ++ post) ∧
      create_affiliate_link ("https://marketplace.example/dp/B09B8V1LZ3".toList)
        = "https://www.amazon.it/dp/".toList ++ "B09B8V1LZ3".toList ++ "/?tag=".toList
            ++ AMAZON_TAG ++ "&linkCode=ogi&th=1&psc=1".toList) ∧
    create_affiliate_link ("https://marketplace.example/x?ref=1".toList)
      = (if ("https://marketplace.example/x?ref=1".toList).contains '?'
         then "https://marketplace.example/x?ref=1".toList ++ "&tag=".toList ++ AMAZON_TAG
         else "https://marketplace.example/x?ref=1".toList ++ "?tag=".toList ++ AMAZON_TAG) :=
  ⟨(C2_affiliate_link_shape ("https://marketplace.example/dp/B09B8V1LZ3".toList)).1
      ("B09B8V1LZ3".toList) (by decide),
   (C2_affiliate_link_shape ("https://marketplace.example/x?ref=1".toList)).2.1 (by decide)⟩

/- ### Listing fingerprinter: AmazonScraperAdvanced.generate_deal_hash (bot.py 264-268)
   hashlib.md5 is implemented in full; machine words are Nat reduced mod 2^32. -/

/-- The 32-bit word modulus. -/
def w32 : Nat := 4294967296

/-- Bitwise complement of a 32-bit word. -/
def not32 (x : Nat) : Nat := x ^^^ 4294967295

/-- Left rotation of a 32-bit word by s bits. -/
def rotl32 (x s : Nat) : Nat := ((x <<< s) ||| (x >>> (32 - s))) % w32

/-- MD5 auxiliary function F (rounds 0-15). -/
def mdF (b c d : Nat) : Nat := (b &&& c) ||| (not32 b &&& d)

/-- MD5 auxiliary function G (rounds 16-31). -/
def mdG (b c d : Nat) : Nat := (d &&& b) ||| (not32 d &&& c)

/-- MD5 auxiliary function H (rounds 32-47). -/
def mdH (b c d : Nat) : Nat := b ^^^ c ^^^ d

/-- MD5 auxiliary function I (rounds 48-63). -/
def mdI (b c d : Nat) : Nat := c ^^^ (b ||| not32 d)

/-- The per-round shift table of MD5. -/
def md5S : List Nat :=
  [7, 12, 17, 22, 7, 12, 17, 22, 7, 12, 17, 22, 7, 12, 17, 22,
   5, 9, 14, 20, 5, 9, 14, 20, 5, 9, 14, 20, 5, 9, 14, 20,
   4, 11, 16, 23, 4, 11, 16, 23, 4, 11, 16, 23, 4, 11, 16, 23,
   6, 10, 15, 21, 6, 10, 15, 21, 6, 10, 15, 21, 6, 10, 15, 21]

/-- The sine-derived constant table of MD5 (RFC 1321 T[1..64], decimal). -/
def md5K : List Nat :=
  [3614090360, 3905402710, 606105819, 3250441966,
   4118548399, 1200080426, 2821735955, 4249261313,
   1770035416, 2336552879, 4294925233, 2304563134,
   1804603682, 4254626195, 2792965006, 1236535329,
   4129170786, 3225465664, 643717713, 3921069994,
   3593408605, 38016083, 3634488961, 3889429448,
   568446438, 3275163606, 4107603335, 1163531501,
   2850285829, 4243563512, 1735328473, 2368359562,
   4294588738, 2272392833, 1839030562, 4259657740,
   2763975236, 1272893353, 4139469664, 3200236656,
   681279174, 3936430074, 3572445317, 76029189,
   3654602809, 3873151461, 530742520, 3299628645,
   4096336452, 1126891415, 2878612391, 4237533241,
   1700485571, 2399980690, 4293915773, 2240044497,
   1873313359, 4264355552, 2734768916, 1309151649,
   4149444226, 3174756917, 718787259, 3951481745]

/-- One MD5 round applied to the state, with message-word accessor m. -/
def md5Round (m : Nat → Nat) (st : Nat × Nat × Nat × Nat) (i : Nat) : Nat × Nat × Nat × Nat :=
  let a := st.1
  let b := st.2.1
  let c := st.2.2.1
  let d := st.2.2.2
  let f := if i < 16 then mdF b c d
           else if i < 32 then mdG b c d
           else if i < 48 then mdH b c d
           else mdI b c d
  let g := if i < 16 then i
           else if i < 32 then (5 * i + 1) % 16
           else if i < 48 then (3 * i + 5) % 16
           else (7 * i) % 16
  let tmp := (f + a + md5K.getD i 0 + m g) % w32
  (d, (b + rotl32 tmp (md5S.getD i 0)) % w32, b, c)

/-- Little-endian 32-bit message word j of a 64-byte block. -/
def blockWord (blk : List Nat) (j : Nat) : Nat :=
  blk.getD (4 * j) 0 + 256 * blk.getD (4 * j + 1) 0 + 65536 * blk.getD (4 * j + 2) 0
    + 16777216 * blk.getD (4 * j + 3) 0

/-- Process one 64-byte block of the padded message. -/
def md5Block (st : Nat × Nat × Nat × Nat) (blk : List Nat) : Nat × Nat × Nat × Nat :=
  let r := (List.range 64).foldl (md5Round (blockWord blk)) st
  ((st.1 + r.1) % w32, (st.2.1 + r.2.1) % w32, (st.2.2.1 + r.2.2.1) % w32,
   (st.2.2.2 + r.2.2.2) % w32)

/-- Split a padded message into its 64-byte blocks: block k is bytes
    64k .. 64k+63. -/
def toBlocks (bs : List Nat) : List (List Nat) :=
  (List.range ((bs.length + 63) / 64)).map (fun k => (bs.drop (64 * k)).take 64)

/-- MD5 padding: a 0x80 byte, zeros up to 56 mod 64, then the 64-bit
    little-endian bit length. -/
def md5Pad (msg : List Nat) : List Nat :=
  let len := msg.length
  let zeros := (119 - (len % 64)) % 64
  let bitLen := (8 * len) % 18446744073709551616
  msg ++ [128] ++ List.replicate zeros 0 ++
    [bitLen % 256, bitLen / 256 % 256, bitLen / 65536 % 256, bitLen / 16777216 % 256,
     bitLen / 4294967296 % 256, bitLen / 1099511627776 % 256,
     bitLen / 281474976710656 % 256, bitLen / 72057594037927936 % 256]

/-- Lowercase hexadecimal digits, as Python's hexdigest emits. -/
def hexDigitChar (n : Nat) : Char := "0123456789abcdef".toList.getD n '0'

/-- Two-character lowercase hex rendering of one byte. -/
def hexByte (b : Nat) : Str := [hexDigitChar (b / 16 % 16), hexDigitChar (b % 16)]

/-- Little-endian byte serialization of one 32-bit word. -/
def wordBytes (x : Nat) : List Nat := [x % 256, x / 256 % 256, x / 65536 % 256, x / 16777216 % 256]

/-- The MD5 hex digest of a byte sequence, as hashlib.md5(...).hexdigest(). -/
def md5hex (msg : List Nat) : Str :=
  let st := (toBlocks (md5Pad msg)).foldl md5Block (1732584193, 4023233417, 2562383102, 271733878)
  ((wordBytes st.1 ++ wordBytes st.2.1 ++ wordBytes st.2.2.1 ++ wordBytes st.2.2.2).map hexByte).flatten

/-- UTF-8 encoding of one character, as Python's str.encode() produces. -/
def utf8Encode (c : Char) : List Nat :=
  let n := c.toNat
  if n < 128 then [n]
  else if n < 2048 then [192 ||| (n >>> 6), 128 ||| (n &&& 63)]
  else if n < 65536 then
    [224 ||| (n >>> 12), 128 ||| ((n >>> 6) &&& 63), 128 ||| (n &&& 63)]
  else
    [240 ||| (n >>> 18), 128 ||| ((n >>> 12) &&& 63), 128 ||| ((n >>> 6) &&& 63), 128 ||| (n &&& 63)]

/-- Python str.lower() on one character, restricted to the basic latin letters
    that occur in scraped titles and prices. -/
def pyLower (c : Char) : Char :=
  if 65 ≤ c.toNat ∧ c.toNat ≤ 90 then Char.ofNat (c.toNat + 32) else c

/-- Shallow embedding of `AmazonScraperAdvanced.generate_deal_hash` (bot.py 264-268):
    the MD5 hex digest of the case-folded string `title_price`, truncated to its
    first 16 hex characters. -/
def generate_deal_hash (title price : Str) : Str :=
  let content := (title ++ '_' :: price).map pyLower
  (md5hex (content.flatMap utf8Encode)).take 16

/-- A lowercase hexadecimal character. -/
def isHexChar (c : Char) : Bool := "0123456789abcdef".toList.contains c

theorem Char_toNat_ofNat_lt {n : Nat} (h : n < 55296) : (Char.ofNat n).toNat = n := by
  rw [Char.ofNat, dif_pos (Or.inl (by simpa using h))]
  simp [Char.ofNatAux, Char.toNat, UInt32.toNat]

theorem pyLower_idem (c : Char) : pyLower (pyLower c) = pyLower c := by
  unfold pyLower
  by_cases h : 65 ≤ c.toNat ∧ c.toNat ≤ 90
  · rw [if_pos h]
    have hv : (Char.ofNat (c.toNat + 32)).toNat = c.toNat + 32 :=
      Char_toNat_ofNat_lt (by omega)
    rw [if_neg (fun hcon => by rw [hv] at hcon; omega)]
  · rw [if_neg h, if_neg h]

theorem pyLower_underscore : pyLower '_' = '_' := by decide

theorem map_pyLower_idem (s : Str) : (s.map pyLower).map pyLower = s.map pyLower := by
  induction s with
  | nil => rfl
  | cons c cs ih => simp [pyLower_idem, ih]

theorem md5hex_length (msg : List Nat) : (md5hex msg).length = 32 := by
  simp only [md5hex]
  simp [wordBytes, hexByte]

theorem hexDigitChar_hex (n : Nat) : isHexChar (hexDigitChar n) = true := by
  by_cases h : n < 16
  · interval_cases n <;> decide
  · unfold hexDigitChar isHexChar
    rw [List.getD_eq_default]
    · decide
    · simp
      omega

theorem md5hex_all_hex (msg : List Nat) : (md5hex msg).all isHexChar = true := by
  simp only [md5hex]
  simp [wordBytes, hexByte, hexDigitChar_hex]

/-- C6: the fingerprint function is deterministic — it is a pure function of the
    pair (title, price_display), so identical inputs give identical fingerprints
    on every call and across process restarts — and its result is the hash of the
    case-folded combination of title and price truncated to 16 hexadecimal
    characters: it has length 16, all its characters are hex digits, and it
    depends only on the case-folded inputs. -/
theorem C6_fingerprint_deterministic (title price : Str) :
    (generate_deal_hash title price).length = 16 ∧
    (generate_deal_hash title price).all isHexChar = true ∧
    generate_deal_hash title price
      = generate_deal_hash (title.map pyLower) (price.map pyLower) := by
  refine ⟨?_, ?_, ?_⟩
  · simp only [generate_deal_hash]
    rw [List.length_take, md5hex_length]
    decide
  · simp only [generate_deal_hash]
    rw [List.all_eq_true]
    intro c hc
    have hall := md5hex_all_hex ((((title ++ '_' :: price).map pyLower).flatMap utf8Encode))
    rw [List.all_eq_true] at hall
    exact hall c (List.take_subset 16 _ hc)
  · simp only [generate_deal_hash]
    have hc : (title.map pyLower ++ '_' :: price.map pyLower).map pyLower
        = (title ++ '_' :: price).map pyLower := by
      simp only [List.map_append, List.map_cons]
      rw [map_pyLower_idem, map_pyLower_idem, pyLower_underscore]
    rw [hc]

/- ### Deduplication store: Database.is_deal_sent / mark_deal_sent (bot.py 165-181) -/

/-- One row of the sent_deals table, restricted to the columns the core writes
    (bot.py 177-181); the remaining columns keep SQL defaults and play no role. -/
structure SentDeal where
  deal_hash : Str
  title : Str
  price : Str
  url : Str
deriving DecidableEq, Repr

/-- Shallow embedding of `Database.is_deal_sent` (bot.py 165-172):
    SELECT COUNT(*) FROM sent_deals WHERE deal_hash = $1, compared with 0. -/
def is_deal_sent (tbl : List SentDeal) (h : Str) : Bool :=
  decide (0 < tbl.countP (fun r => decide (r.deal_hash = h)))

/-- Shallow embedding of `Database.mark_deal_sent` (bot.py 174-181): INSERT with
    ON CONFLICT (deal_hash) DO NOTHING — the UNIQUE constraint on deal_hash
    (bot.py 88) makes the insert a silent no-op when such a row exists. -/
def mark_deal_sent (tbl : List SentDeal) (h t p u : Str) : List SentDeal :=
  if tbl.any (fun r => decide (r.deal_hash = h)) then tbl
  else tbl ++ [⟨h, t, p, u⟩]

/-- C5: mark_deal_sent is idempotent: calling it for a fingerprint that already
    has a DeliveryRecord is a no-op rather than an error, and calling it twice
    with the same fingerprint leaves exactly one record for that fingerprint. -/
theorem C5_mark_idempotent (tbl tbl2 : List SentDeal) (f t p u t2 p2 u2 : Str)
    (hsent : is_deal_sent tbl2 f = true)
    (hfree : tbl.countP (fun r => decide (r.deal_hash = f)) = 0) :
    mark_deal_sent tbl2 f t p u = tbl2 ∧
    (mark_deal_sent (mark_deal_sent tbl f t p u) f t2 p2 u2).countP
        (fun r => decide (r.deal_hash = f)) = 1 := by
  constructor
  · unfold mark_deal_sent
    rw [if_pos]
    unfold is_deal_sent at hsent
    rw [decide_eq_true_iff, List.countP_pos_iff] at hsent
    rw [List.any_eq_true]
    obtain ⟨r, hr, hp⟩ := hsent
    exact ⟨r, hr, hp⟩
  · have hnone : tbl.any (fun r => decide (r.deal_hash = f)) = false := by
      rw [List.countP_eq_zero] at hfree
      rw [List.any_eq_false]
      intro r hr
      simpa using hfree r hr
    have h1 : mark_deal_sent tbl f t p u = tbl ++ [⟨f, t, p, u⟩] := by
      unfold mark_deal_sent
      rw [if_neg (by rw [hnone]; simp)]
    have h2 : (tbl ++ [(⟨f, t, p, u⟩ : SentDeal)]).any
        (fun r => decide (r.deal_hash = f)) = true := by
      rw [List.any_eq_true]
      exact ⟨⟨f, t, p, u⟩, by simp, by simp⟩
    rw [h1]
    unfold mark_deal_sent
    rw [if_pos h2, List.countP_append, hfree]
    simp

/-- Witness for C5: one store already holding the fingerprint (no-op case) and
    one empty store marked twice (exactly-one-record case). -/
theorem C5_mark_idempotent_witness :
    mark_deal_sent [⟨"f0".toList, "t0".toList, "p0".toList, "u0".toList⟩]
        ("f0".toList) ("t1".toList) ("p1".toList) ("u1".toList)
      = [⟨"f0".toList, "t0".toList, "p0".toList, "u0".toList⟩] ∧
    (mark_deal_sent
        (mark_deal_sent [] ("f0".toList) ("t1".toList) ("p1".toList) ("u1".toList))
        ("f0".toList) ("t2".toList) ("p2".toList) ("u2".toList)).countP
        (fun r => decide (r.deal_hash = "f0".toList)) = 1 :=
  C5_mark_idempotent [] [⟨"f0".toList, "t0".toList, "p0".toList, "u0".toList⟩]
    ("f0".toList) ("t1".toList) ("p1".toList) ("u1".toList)
    ("t2".toList) ("p2".toList) ("u2".toList) (by decide) (by decide)

/- ### Preference store: Database.add_user / get_all_users (bot.py 124-143) -/

/-- One row of the users table with the schema defaults of bot.py 50-64.
    Timestamps are modelled as natural numbers (seconds). -/
structure UserRow where
  user_id : Int
  username : Str
  first_name : Str
  notifications_enabled : Bool
  categories : List Str
  max_price : Int
  min_discount : Int
  preferred_brands : List Str
  created_at : Nat
  last_activity : Nat
  total_clicks : Int
deriving DecidableEq, Repr

/-- An arbitrary fixed row, used only as the out-of-range default of List.getD. -/
def dummyUser : UserRow :=
  { user_id := 0, username := [], first_name := [], notifications_enabled := true,
    categories := [], max_price := 500, min_discount := 10, preferred_brands := [],
    created_at := 0, last_activity := 0, total_clicks := 0 }

/-- Shallow embedding of `Database.add_user` (bot.py 124-132): INSERT (user_id,
    username, first_name, last_activity) with the schema defaults for the other
    columns, ON CONFLICT (user_id) DO UPDATE SET last_activity only. -/
def add_user (now : Nat) (tbl : List UserRow) (uid : Int) (uname fname : Str) : List UserRow :=
  if tbl.any (fun r => decide (r.user_id = uid)) then
    tbl.map (fun r => if r.user_id = uid then { r with last_activity := now } else r)
  else
    tbl ++ [{ user_id := uid, username := uname, first_name := fname,
              notifications_enabled := true, categories := [], max_price := 500,
              min_discount := 10, preferred_brands := [], created_at := now,
              last_activity := now, total_clicks := 0 }]

/-- The 30-day retention window of get_all_users, in seconds. -/
def retentionWindow : Nat := 2592000

/-- Shallow embedding of `Database.get_all_users` (bot.py 134-143): recipients
    with notifications enabled and last_activity within the last 30 days. -/
def get_all_users (now : Nat) (tbl : List UserRow) : List UserRow :=
  tbl.filter (fun r => r.notifications_enabled && decide (now < r.last_activity + retentionWindow))

/-- C10: for a recipient already present, add_user refreshes only last_activity
    and leaves every other field of every row unchanged; for a recipient not yet
    present, it appends a fresh row with the schema defaults. -/
theorem C10_upsert_frame (now : Nat) (tbl : List UserRow) (uid : Int) (uname fname : Str) :
    (add_user now tbl uid uname fname).length
        = (if tbl.any (fun r => decide (r.user_id = uid)) then tbl.length else tbl.length + 1) ∧
    (∀ i, i < tbl.length →
      ((add_user now tbl uid uname fname).getD i dummyUser).user_id
          = (tbl.getD i dummyUser).user_id ∧
      ((add_user now tbl uid uname fname).getD i dummyUser).username
          = (tbl.getD i dummyUser).username ∧
      ((add_user now tbl uid uname fname).getD i dummyUser).first_name
          = (tbl.getD i dummyUser).first_name ∧
      ((add_user now tbl uid uname fname).getD i dummyUser).notifications_enabled
          = (tbl.getD i dummyUser).notifications_enabled ∧
      ((add_user now tbl uid uname fname).getD i dummyUser).categories
          = (tbl.getD i dummyUser).categories ∧
      ((add_user now tbl uid uname fname).getD i dummyUser).max_price
          = (tbl.getD i dummyUser).max_price ∧
      ((add_user now tbl uid uname fname).getD i dummyUser).min_discount
          = (tbl.getD i dummyUser).min_discount ∧
      ((add_user now tbl uid uname fname).getD i dummyUser).preferred_brands
          = (tbl.getD i dummyUser).preferred_brands ∧
      ((add_user now tbl uid uname fname).getD i dummyUser).created_at
          = (tbl.getD i dummyUser).created_at ∧
      ((add_user now tbl uid uname fname).getD i dummyUser).total_clicks
          = (tbl.getD i dummyUser).total_clicks ∧
      ((tbl.getD i dummyUser).user_id ≠ uid →
          (add_user now tbl uid uname fname).getD i dummyUser = tbl.getD i dummyUser) ∧
      (tbl.any (fun r => decide (r.user_id = uid)) = true →
          (tbl.getD i dummyUser).user_id = uid →
          ((add_user now tbl uid uname fname).getD i dummyUser).last_activity = now)) ∧
    (tbl.any (fun r => decide (r.user_id = uid)) = false →
      add_user now tbl uid uname fname
        = tbl ++ [{ user_id := uid, username := uname, first_name := fname,
                    notifications_enabled := true, categories := [], max_price := 500,
                    min_discount := 10, preferred_brands := [], created_at := now,
                    last_activity := now, total_clicks := 0 }]) := by
  by_cases hp : tbl.any (fun r => decide (r.user_id = uid)) = true
  · have hdef : add_user now tbl uid uname fname
        = tbl.map (fun r => if r.user_id = uid then { r with last_activity := now } else r) := by
      unfold add_user
      rw [if_pos hp]
    refine ⟨?_, ?_, fun hcon => by rw [hcon] at hp; exact absurd hp (by simp)⟩
    · rw [hdef, if_pos hp, List.length_map]
    · intro i hi
      have hget : (add_user now tbl uid uname fname).getD i dummyUser
          = (fun r => if r.user_id = uid then { r with last_activity := now } else r)
              (tbl.getD i dummyUser) := by
        rw [hdef]
        rw [List.getD_eq_getElem?_getD, List.getD_eq_getElem?_getD,
            List.getElem?_map, List.getElem?_eq_getElem hi]
        rfl
      rw [hget]
      dsimp only
      by_cases hu : (tbl.getD i dummyUser).user_id = uid
      · rw [if_pos hu]
        exact ⟨rfl, rfl, rfl, rfl, rfl, rfl, rfl, rfl, rfl, rfl,
               fun hcon => absurd hu hcon, fun _ _ => rfl⟩
      · rw [if_neg hu]
        exact ⟨rfl, rfl, rfl, rfl, rfl, rfl, rfl, rfl, rfl, rfl,
               fun _ => rfl, fun _ hcon => absurd hcon hu⟩
  · have hnp : tbl.any (fun r => decide (r.user_id = uid)) = false := by
      simpa using hp
    have hdef : add_user now tbl uid uname fname
        = tbl ++ [{ user_id := uid, username := uname, first_name := fname,
                    notifications_enabled := true, categories := [], max_price := 500,
                    min_discount := 10, preferred_brands := [], created_at := now,
                    last_activity := now, total_clicks := 0 }] := by
      unfold add_user
      rw [if_neg (by rw [hnp]; simp)]
    refine ⟨?_, ?_, fun _ => hdef⟩
    · rw [hdef, hnp, List.length_append]
      simp
    · intro i hi
      have hget : (add_user now tbl uid uname fname).getD i dummyUser
          = tbl.getD i dummyUser := by
        rw [hdef, List.getD_eq_getElem?_getD, List.getD_eq_getElem?_getD,
            List.getElem?_append_left hi]
      rw [hget]
      exact ⟨rfl, rfl, rfl, rfl, rfl, rfl, rfl, rfl, rfl, rfl,
             fun _ => rfl, fun hcon => absurd hcon (by rw [hnp]; simp)⟩

/-- A concrete recipient row with non-default preference values, used by the
    C10 witness to show the preference fields survive an upsert. -/
def bobRow : UserRow :=
  { user_id := 7, username := "bob".toList, first_name := "Bob".toList,
    notifications_enabled := false, categories := ["tech".toList], max_price := 100,
    min_discount := 20, preferred_brands := ["acme".toList], created_at := 5,
    last_activity := 5, total_clicks := 3 }

/-- The row add_user creates for user 7 named x / y at time 99, per the schema
    defaults of bot.py 50-64. -/
def freshRow7 : UserRow :=
  { user_id := 7, username := "x".toList, first_name := "y".toList,
    notifications_enabled := true, categories := [], max_price := 500,
    min_discount := 10, preferred_brands := [], created_at := 99,
    last_activity := 99, total_clicks := 0 }

/-- Witness for C10: a store holding one matching recipient with non-default
    preferences refreshed at index 0, and the creation case on the empty store. -/
theorem C10_upsert_frame_witness :
    ((add_user 99 [bobRow] 7 ("x".toList) ("y".toList)).getD 0 dummyUser).max_price
      = (([bobRow] : List UserRow).getD 0 dummyUser).max_price ∧
    add_user 99 [] 7 ("x".toList) ("y".toList) = [] ++ [freshRow7] :=
  ⟨((C10_upsert_frame 99 [bobRow] 7 ("x".toList) ("y".toList)).2.1 0
      (by decide)).2.2.2.2.2.1,
   (C10_upsert_frame 99 [] 7 ("x".toList) ("y".toList)).2.2 (by decide)⟩

/- ### Source collector: AmazonScraperAdvanced.scrape_amazon_deals (bot.py 305-393) -/

/-- Python's str.strip() whitespace test for the characters that occur here. -/
def isPySpace (c : Char) : Bool :=
  c == ' ' || c == '\t' || c == '\n' || c == '\r'

/-- Python str.strip(): whitespace removed from both ends. -/
def strip (s : Str) : Str :=
  ((s.dropWhile isPySpace).reverse.dropWhile isPySpace).reverse

/-- Python int(...) on the digit strings produced by scraped prices: all-digit,
    non-empty input parses; anything else raises ValueError, modelled as none.
    (The sign/whitespace forms int() also accepts never reach this call: its
    argument is a stripped price text with commas removed.) -/
def parsePyInt (s : Str) : Option Nat :=
  if !s.isEmpty && s.all Char.isDigit then
    some (s.foldl (fun acc c => 10 * acc + (c.toNat - 48)) 0)
  else none

/-- One s-search-result product fragment as the selectors of bot.py 338-373 see
    it: each field holds the text (or attribute value) the selector finds, or
    none when the element or attribute is absent. -/
structure Fragment where
  title_mini : Option Str
  title_base : Option Str
  h2_link : Option Str
  price_whole : Option Str
  orig_price : Option Str
  img_src : Option Str
  rating : Option Str
deriving DecidableEq, Repr

/-- One parsed deal dictionary as scrape_amazon_deals appends it (bot.py 375-384). -/
structure Deal where
  title : Str
  price : Str
  price_value : Nat
  original_price : Str
  url : Str
  image : Str
  rating : Str
  source : Str
deriving DecidableEq, Repr

/-- The title truncation of bot.py 376. -/
def truncTitle (t : Str) : Str :=
  if 100 < t.length then t.take 100 ++ "...".toList else t

/-- The body of the per-product loop of bot.py 337-384: none models the
    continue paths (no h2 link, no price element, int() raising, price above
    the 500 broadcast ceiling); missing title or image become placeholders. -/
def parseFragment (f : Fragment) : Option Deal :=
  let titleText := match f.title_mini with
    | some t => some t
    | none => f.title_base
  let title := match titleText with
    | some t => strip t
    | none => "Prodotto Amazon".toList
  match f.h2_link with
  | none => none
  | some href =>
    let product_url := "https://www.amazon.it".toList ++ href
    match f.price_whole with
    | none => none
    | some ptext =>
      let pt := strip ptext
      let price := '€' :: pt
      match parsePyInt (pt.filter (fun c => c != ',')) with
      | none => none
      | some price_value =>
        if 500 < price_value then none
        else
          let original_price := match f.orig_price with
            | some o => strip o
            | none => price
          let image := match f.img_src with
            | some s => s
            | none => []
          let rating := match f.rating with
            | some r => r
            | none => "N/A".toList
          some { title := truncTitle title, price := price, price_value := price_value,
                 original_price := original_price, url := product_url, image := image,
                 rating := rating, source := "Amazon".toList }

/-- The fragment loop of bot.py 336-388: each fragment is tried inside its own
    try/except; a failing fragment is skipped and the loop continues. -/
def collectDeals : List Fragment → List Deal
  | [] => []
  | f :: rest =>
      match parseFragment f with
      | none => collectDeals rest
      | some d => d :: collectDeals rest

/-- Shallow embedding of `AmazonScraperAdvanced.scrape_amazon_deals`
    (bot.py 305-393): non-200 responses yield the empty list (bot.py 328-329);
    otherwise the first max_deals fragments are parsed best-effort. -/
def scrape_amazon_deals (status : Nat) (products : List Fragment) (max_deals : Nat) : List Deal :=
  if status ≠ 200 then [] else collectDeals (products.take max_deals)

theorem collectDeals_eq_filterMap (l : List Fragment) :
    collectDeals l = l.filterMap parseFragment := by
  induction l with
  | nil => rfl
  | cons f rest ih =>
    unfold collectDeals
    cases hf : parseFragment f with
    | none => rw [List.filterMap_cons_none hf, ih]
    | some d => rw [List.filterMap_cons_some hf, ih]

theorem collectDeals_append (l1 l2 : List Fragment) :
    collectDeals (l1 ++ l2) = collectDeals l1 ++ collectDeals l2 := by
  simp [collectDeals_eq_filterMap]

/-- A well-formed concrete fragment: every selector finds its element. -/
def goodFrag : Fragment :=
  { title_mini := some ("Echo Dot (5a generazione)".toList), title_base := none,
    h2_link := some ("/dp/B09B8V1LZ3".toList), price_whole := some ("29".toList),
    orig_price := some ("€39,99".toList), img_src := some ("https://img.example/x.jpg".toList),
    rating := some ("4,7 su 5 stelle".toList) }

/-- A malformed concrete fragment: the mandatory price element is missing. -/
def badFrag : Fragment :=
  { title_mini := some ("Mystery".toList), title_base := none,
    h2_link := some ("/dp/B000000000".toList), price_whole := none,
    orig_price := none, img_src := none, rating := none }

/-- Nine well-formed fragments with one malformed fragment in the middle. -/
def batchTen : List Fragment :=
  List.replicate 4 goodFrag ++ [badFrag] ++ List.replicate 5 goodFrag

/-- C3: collection is best-effort per fragment. The collected result is exactly
    the per-fragment parses of the first max_deals fragments, so one fragment's
    failure never aborts the rest; removing a failing fragment changes nothing
    else; a fragment without the mandatory price element is skipped; a fragment
    whose title and image elements are missing is kept, with placeholder title
    and empty image; and the concrete ten-fragment batch with one malformed
    fragment among nine well-formed ones yields exactly nine listings. -/
theorem C3_fragment_isolation :
    (∀ products maxd, scrape_amazon_deals 200 products maxd
        = (products.take maxd).filterMap parseFragment) ∧
    (∀ pre post m, parseFragment m = none →
        collectDeals (pre ++ m :: post) = collectDeals (pre ++ post)) ∧
    (∀ f, f.price_whole = none → parseFragment f = none) ∧
    (∀ href ptext v,
        parsePyInt ((strip ptext).filter (fun c => c != ',')) = some v → ¬ 500 < v →
        parseFragment { title_mini := none, title_base := none, h2_link := some href,
                        price_whole := some ptext, orig_price := none, img_src := none,
                        rating := none }
          = some { title := "Prodotto Amazon".toList, price := '€' :: strip ptext,
                   price_value := v, original_price := '€' :: strip ptext,
                   url := "https://www.amazon.it".toList ++ href, image := [],
                   rating := "N/A".toList, source := "Amazon".toList }) ∧
    (scrape_amazon_deals 200 batchTen 10).length = 9 := by
  refine ⟨?_, ?_, ?_, ?_, by decide⟩
  · intro products maxd
    unfold scrape_amazon_deals
    rw [if_neg (by simp)]
    exact collectDeals_eq_filterMap _
  · intro pre post m hm
    rw [collectDeals_append, collectDeals_append]
    have hmp : collectDeals (m :: post) = collectDeals post := by
      rw [collectDeals_eq_filterMap, collectDeals_eq_filterMap, List.filterMap_cons_none hm]
    rw [hmp]
  · intro f hp
    cases hl : f.h2_link with
    | none => simp [parseFragment, hl]
    | some href => simp [parseFragment, hl, hp]
  · intro href ptext v hv h500
    simp only [parseFragment]
    rw [hv]
    dsimp only
    rw [if_neg h500]
    have htr : truncTitle ("Prodotto Amazon".toList) = "Prodotto Amazon".toList := by decide
    rw [htr]

/-- Witness for C3: the universally quantified parts applied at the concrete
    ten-fragment batch, its malformed member, and a concrete price text. -/
theorem C3_fragment_isolation_witness :
    collectDeals (List.replicate 4 goodFrag ++ badFrag :: List.replicate 5 goodFrag)
      = collectDeals (List.replicate 4 goodFrag ++ List.replicate 5 goodFrag) ∧
    parseFragment badFrag = none ∧
    parseFragment { title_mini := none, title_base := none,
                    h2_link := some ("/dp/B09B8V1LZ3".toList),
                    price_whole := some ("29".toList), orig_price := none,
                    img_src := none, rating := none }
      = some { title := "Prodotto Amazon".toList, price := '€' :: strip ("29".toList),
               price_value := 29, original_price := '€' :: strip ("29".toList),
               url := "https://www.amazon.it".toList ++ "/dp/B09B8V1LZ3".toList,
               image := [], rating := "N/A".toList, source := "Amazon".toList } :=
  ⟨(C3_fragment_isolation).2.1 (List.replicate 4 goodFrag) (List.replicate 5 goodFrag)
      badFrag ((C3_fragment_isolation).2.2.1 badFrag (by decide)),
   (C3_fragment_isolation).2.2.1 badFrag (by decide),
   (C3_fragment_isolation).2.2.2.1 ("/dp/B09B8V1LZ3".toList) ("29".toList) 29
      (by decide) (by decide)⟩

/- ### Delivery engine: NotificationSystem.send_to_channel (bot.py 400-484) -/

/-- A broadcast deal as get_trending_deals hands it to the notifier: the deal
    dictionary of the scraper with the fingerprint added at bot.py 300. Only the
    fields send_to_channel branches on or stores are listed; original_price and
    rating shape the message text only. -/
structure BDeal where
  title : Str
  price : Str
  original_price : Str
  url : Str
  image : Str
  rating : Str
  hash : Str
deriving DecidableEq, Repr

/-- One externally visible action of send_to_channel, in program order: the
    header message, per-deal photo or text sends (indexed by position in the
    sent prefix), the mark_deal_sent database write, and the footer message. -/
inductive Act where
  | header
  | sendPhoto (i : Nat)
  | sendMsg (i : Nat)
  | mark (i : Nat)
  | footer
deriving DecidableEq, Repr

/-- bot.py 444: deal.get('image') truthy and startswith('http'). -/
def hasHttpImage (d : BDeal) : Bool :=
  !d.image.isEmpty && leadsWith ("http".toList) d.image

/-- The send call bot.py 444-456 issues for deal d at position i: send_photo
    when an http image is present, send_message otherwise. -/
def actOf (d : BDeal) (i : Nat) : Act :=
  if hasHttpImage d then Act.sendPhoto i else Act.sendMsg i

/-- The per-deal loop of bot.py 424-470 as a trace of attempted actions plus
    the resulting sent_deals store. fails says whether a given send call raises;
    a raised send is caught by the inner except (bot.py 469-470), skips the
    marking, and the loop continues with the next deal; after a successful send
    the deal is marked when a database is configured (bot.py 459-465). -/
def sendLoop (fails : Act → Bool) (hasDb : Bool) :
    List BDeal → Nat → List SentDeal → List Act × List SentDeal
  | [], _, store => ([], store)
  | d :: rest, i, store =>
      let act := actOf d i
      if fails act then
        let r := sendLoop fails hasDb rest (i + 1) store
        (act :: r.1, r.2)
      else if hasDb then
        let store2 := mark_deal_sent store d.hash d.title d.price d.url
        let r := sendLoop fails hasDb rest (i + 1) store2
        (act :: Act.mark i :: r.1, r.2)
      else
        let r := sendLoop fails hasDb rest (i + 1) store
        (act :: r.1, r.2)

/-- Shallow embedding of `NotificationSystem.send_to_channel` (bot.py 404-484):
    nothing happens without a channel id or without deals (bot.py 406-407); a
    raising header send aborts the call through the outer except (bot.py
    483-484); at most five deals are processed (bot.py 424); the footer send is
    attempted afterwards. -/
def send_to_channel (fails : Act → Bool) (hasDb channelSet : Bool)
    (deals : List BDeal) (store : List SentDeal) : List Act × List SentDeal :=
  if !channelSet || deals.isEmpty then ([], store)
  else if fails Act.header then ([Act.header], store)
  else
    let r := sendLoop fails hasDb (deals.take 5) 0 store
    (Act.header :: r.1 ++ [Act.footer], r.2)

/-- Is this action a dedup-store marking? -/
def isMark : Act → Bool
  | Act.mark _ => true
  | _ => false

/-- Is this action the channel send for deal i (with or without image)? -/
def sendOf (i : Nat) (a : Act) : Bool :=
  decide (a = Act.sendPhoto i) || decide (a = Act.sendMsg i)

/-- A trace that does not begin with a marking. -/
def headNotMark : List Act → Bool
  | [] => true
  | a :: _ => !isMark a

/-- Every marking in the trace is immediately preceded by the send action of
    the same deal, and that send did not raise. -/
def marksOk (fails : Act → Bool) : List Act → Bool
  | [] => true
  | Act.mark _ :: _ => false
  | a :: Act.mark i :: rest => sendOf i a && !fails a && marksOk fails rest
  | _ :: rest => marksOk fails rest

/-- Number of send attempts for deal i in a trace. -/
def sendCount (tr : List Act) (i : Nat) : Nat :=
  tr.countP (sendOf i)

theorem marksOk_nil (fails : Act → Bool) : marksOk fails [] = true := rfl

theorem marksOk_mark_head (fails : Act → Bool) (i : Nat) (tr : List Act) :
    marksOk fails (Act.mark i :: tr) = false := by
  simp [marksOk]

theorem marksOk_single (fails : Act → Bool) (a : Act) (ha : isMark a = false) :
    marksOk fails [a] = true := by
  cases a <;> simp_all [marksOk, isMark]

theorem marksOk_cons_cons_mark (fails : Act → Bool) (a : Act) (i : Nat) (tr : List Act)
    (ha : isMark a = false) :
    marksOk fails (a :: Act.mark i :: tr)
      = (sendOf i a && !fails a && marksOk fails tr) := by
  cases a <;> simp_all [marksOk, isMark]

theorem marksOk_cons_cons (fails : Act → Bool) (a b : Act) (tr : List Act)
    (ha : isMark a = false) (hb : isMark b = false) :
    marksOk fails (a :: b :: tr) = marksOk fails (b :: tr) := by
  cases a <;> cases b <;> simp_all [marksOk, isMark]

theorem marksOk_append_nonmark (fails : Act → Bool) (x : Act) (hx : isMark x = false) :
    ∀ n tr, tr.length ≤ n → marksOk fails tr = true → marksOk fails (tr ++ [x]) = true := by
  intro n
  induction n with
  | zero =>
    intro tr hlen htr
    have he : tr = [] := List.length_eq_zero.mp (Nat.le_zero.mp hlen)
    subst he
    simpa using marksOk_single fails x hx
  | succ n ihn =>
    intro tr hlen htr
    cases tr with
    | nil => simpa using marksOk_single fails x hx
    | cons a tr2 =>
      have ha : isMark a = false := by
        cases a <;> simp_all [marksOk, isMark]
      cases tr2 with
      | nil =>
        have h2 : ([a] : List Act) ++ [x] = a :: x :: [] := rfl
        rw [h2, marksOk_cons_cons fails a x [] ha hx]
        exact marksOk_single fails x hx
      | cons b tr3 =>
        by_cases hb : isMark b = true
        · cases b with
          | mark i =>
            rw [marksOk_cons_cons_mark fails a i tr3 ha] at htr
            have h2 : (a :: Act.mark i :: tr3) ++ [x] = a :: Act.mark i :: (tr3 ++ [x]) := rfl
            rw [h2, marksOk_cons_cons_mark fails a i (tr3 ++ [x]) ha]
            simp only [Bool.and_eq_true] at htr ⊢
            exact ⟨htr.1, ihn tr3 (by simp at hlen; omega) htr.2⟩
          | header => simp [isMark] at hb
          | sendPhoto i => simp [isMark] at hb
          | sendMsg i => simp [isMark] at hb
          | footer => simp [isMark] at hb
        · have hb2 : isMark b = false := by simpa using hb
          rw [marksOk_cons_cons fails a b tr3 ha hb2] at htr
          have h2 : (a :: b :: tr3) ++ [x] = a :: b :: (tr3 ++ [x]) := rfl
          rw [h2, marksOk_cons_cons fails a b (tr3 ++ [x]) ha hb2]
          have h3 : b :: (tr3 ++ [x]) = (b :: tr3) ++ [x] := rfl
          rw [h3]
          exact ihn (b :: tr3) (by simp at hlen ⊢; omega) htr

theorem marksOk_cons_headNotMark (fails : Act → Bool) (a : Act) (tr : List Act)
    (ha : isMark a = false) (htr : headNotMark tr = true)
    (hok : marksOk fails tr = true) : marksOk fails (a :: tr) = true := by
  cases tr with
  | nil => exact marksOk_single fails a ha
  | cons b tr2 =>
    have hb : isMark b = false := by simpa [headNotMark] using htr
    rw [marksOk_cons_cons fails a b tr2 ha hb]
    exact hok

theorem actOf_not_mark (d : BDeal) (i : Nat) : isMark (actOf d i) = false := by
  unfold actOf
  by_cases hi : hasHttpImage d <;> simp [hi, isMark]

theorem actOf_sendOf (d : BDeal) (i : Nat) : sendOf i (actOf d i) = true := by
  unfold actOf
  by_cases hi : hasHttpImage d <;> simp [hi, sendOf]

theorem sendLoop_headNotMark (fails : Act → Bool) (hasDb : Bool)
    (deals : List BDeal) (i : Nat) (store : List SentDeal) :
    headNotMark (sendLoop fails hasDb deals i store).1 = true := by
  cases deals with
  | nil => rfl
  | cons d rest =>
    unfold sendLoop
    by_cases hf : fails (actOf d i)
    · simp [hf, headNotMark, actOf_not_mark]
    · by_cases hdb : hasDb <;> simp [hf, hdb, headNotMark, actOf_not_mark]

theorem sendLoop_marksOk (fails : Act → Bool) (hasDb : Bool) :
    ∀ (deals : List BDeal) (i : Nat) (store : List SentDeal),
      marksOk fails (sendLoop fails hasDb deals i store).1 = true := by
  intro deals
  induction deals with
  | nil => intro i store; rfl
  | cons d rest ih =>
    intro i store
    unfold sendLoop
    by_cases hf : fails (actOf d i)
    · rw [if_pos hf]
      dsimp only
      exact marksOk_cons_headNotMark fails _ _ (actOf_not_mark d i)
        (sendLoop_headNotMark fails hasDb rest (i + 1) store) (ih (i + 1) store)
    · rw [if_neg hf]
      by_cases hdb : hasDb
      · rw [if_pos hdb]
        dsimp only
        rw [marksOk_cons_cons_mark fails _ i _ (actOf_not_mark d i)]
        rw [actOf_sendOf d i, ih (i + 1) _]
        simp [hf]
      · rw [if_neg hdb]
        dsimp only
        exact marksOk_cons_headNotMark fails _ _ (actOf_not_mark d i)
          (sendLoop_headNotMark fails hasDb rest (i + 1) store) (ih (i + 1) store)

theorem sendLoop_mark_mem (fails : Act → Bool) :
    ∀ (deals : List BDeal) (i : Nat) (store : List SentDeal) (j : Nat) (d : BDeal),
      deals[j]? = some d → fails (actOf d (i + j)) = false →
      Act.mark (i + j) ∈ (sendLoop fails true deals i store).1 := by
  intro deals
  induction deals with
  | nil =>
    intro i store j d hj hf
    simp at hj
  | cons d0 rest ih =>
    intro i store j d hj hf
    cases j with
    | zero =>
      simp at hj
      subst hj
      unfold sendLoop
      rw [if_neg (by simp at hf ⊢; simpa using hf)]
      dsimp only
      simp
    | succ j2 =>
      have hj2 : rest[j2]? = some d := by simpa using hj
      have heq : (i + 1) + j2 = i + (j2 + 1) := by omega
      have hf2 : fails (actOf d ((i + 1) + j2)) = false := by rw [heq]; exact hf
      unfold sendLoop
      by_cases hfa : fails (actOf d0 i)
      · rw [if_pos hfa]
        dsimp only
        have hmem := ih (i + 1) store j2 d hj2 hf2
        rw [heq] at hmem
        exact List.mem_cons_of_mem _ hmem
      · rw [if_neg hfa]
        dsimp only
        have hmem := ih (i + 1) (mark_deal_sent store d0.hash d0.title d0.price d0.url)
          j2 d hj2 hf2
        rw [heq] at hmem
        exact List.mem_cons_of_mem _ (List.mem_cons_of_mem _ hmem)

theorem sendCount_cons (a : Act) (tr : List Act) (i : Nat) :
    sendCount (a :: tr) i = sendCount tr i + if sendOf i a then 1 else 0 := by
  simp [sendCount, List.countP_cons]

theorem sendOf_actOf_ne (d : BDeal) (i0 i : Nat) (h : i ≠ i0) :
    sendOf i (actOf d i0) = false := by
  unfold actOf sendOf
  by_cases himg : hasHttpImage d <;> simp [himg] <;> omega

theorem sendOf_mark (i0 i : Nat) : sendOf i (Act.mark i0) = false := by
  simp [sendOf]

theorem sendLoop_sendCount_lt (fails : Act → Bool) (hasDb : Bool) :
    ∀ (deals : List BDeal) (i0 : Nat) (store : List SentDeal) (i : Nat), i < i0 →
      sendCount (sendLoop fails hasDb deals i0 store).1 i = 0 := by
  intro deals
  induction deals with
  | nil =>
    intro i0 store i hi
    rfl
  | cons d rest ih =>
    intro i0 store i hi
    unfold sendLoop
    have hne : sendOf i (actOf d i0) = false := sendOf_actOf_ne d i0 i (by omega)
    by_cases hf : fails (actOf d i0)
    · rw [if_pos hf]
      dsimp only
      rw [sendCount_cons, ih (i0 + 1) store i (by omega), hne]
      rfl
    · rw [if_neg hf]
      by_cases hdb : hasDb
      · rw [if_pos hdb]
        dsimp only
        rw [sendCount_cons, sendCount_cons, ih (i0 + 1) _ i (by omega),
            hne, sendOf_mark]
        rfl
      · rw [if_neg hdb]
        dsimp only
        rw [sendCount_cons, ih (i0 + 1) store i (by omega), hne]
        rfl

theorem sendLoop_sendCount (fails : Act → Bool) (hasDb : Bool) :
    ∀ (deals : List BDeal) (i0 : Nat) (store : List SentDeal) (j : Nat),
      sendCount (sendLoop fails hasDb deals i0 store).1 (i0 + j)
        = if j < deals.length then 1 else 0 := by
  intro deals
  induction deals with
  | nil =>
    intro i0 store j
    simp [sendLoop, sendCount]
  | cons d rest ih =>
    intro i0 store j
    cases j with
    | zero =>
      have hone : sendOf (i0 + 0) (actOf d i0) = true := by
        simpa using actOf_sendOf d i0
      have hrest : ∀ st, sendCount (sendLoop fails hasDb rest (i0 + 1) st).1 (i0 + 0) = 0 :=
        fun st => sendLoop_sendCount_lt fails hasDb rest (i0 + 1) st (i0 + 0) (by omega)
      unfold sendLoop
      by_cases hf : fails (actOf d i0)
      · rw [if_pos hf]
        dsimp only
        rw [sendCount_cons, hrest store, hone]
        simp
      · rw [if_neg hf]
        by_cases hdb : hasDb
        · rw [if_pos hdb]
          dsimp only
          rw [sendCount_cons, sendCount_cons, hrest _, hone, sendOf_mark]
          simp
        · rw [if_neg hdb]
          dsimp only
          rw [sendCount_cons, hrest store, hone]
          simp
    | succ j2 =>
      have hne : sendOf (i0 + (j2 + 1)) (actOf d i0) = false :=
        sendOf_actOf_ne d i0 (i0 + (j2 + 1)) (by omega)
      have heq : (i0 + 1) + j2 = i0 + (j2 + 1) := by omega
      have hlen : (j2 < rest.length) = (j2 + 1 < (d :: rest).length) := by
        simp
      unfold sendLoop
      by_cases hf : fails (actOf d i0)
      · rw [if_pos hf]
        dsimp only
        rw [sendCount_cons, hne]
        have := ih (i0 + 1) store j2
        rw [heq] at this
        rw [this]
        simp
      · rw [if_neg hf]
        by_cases hdb : hasDb
        · rw [if_pos hdb]
          dsimp only
          rw [sendCount_cons, sendCount_cons, hne, sendOf_mark]
          have := ih (i0 + 1) (mark_deal_sent store d.hash d.title d.price d.url) j2
          rw [heq] at this
          rw [this]
          simp
        · rw [if_neg hdb]
          dsimp only
          rw [sendCount_cons, hne]
          have := ih (i0 + 1) store j2
          rw [heq] at this
          rw [this]
          simp

/-- A concrete broadcast deal without an image (text send path). -/
def bdealA : BDeal :=
  { title := "Echo Dot".toList, price := "€29".toList, original_price := "€39".toList,
    url := "https://www.amazon.it/dp/B09B8V1LZ3".toList, image := [],
    rating := "4,7".toList, hash := "aaaa".toList }

/-- A concrete broadcast deal with an http image (photo send path). -/
def bdealImg : BDeal :=
  { title := "Cuffie".toList, price := "€19".toList, original_price := "€25".toList,
    url := "https://www.amazon.it/dp/B000000001".toList,
    image := "https://img.example/c.jpg".toList, rating := "4,5".toList,
    hash := "bbbb".toList }

/-- A failure oracle under which exactly the photo send of deal 0 raises. -/
def photoFail : Act → Bool := fun a => decide (a = Act.sendPhoto 0)

/-- C1 (code evidence): send_to_channel never consults is_deal_sent — bot.py
    404-484 contain no dedup check at all — so a deal whose fingerprint already
    has a DeliveryRecord at check time is delivered to the channel again: with a
    store already holding hash aaaa, the deal carrying hash aaaa still gets one
    channel send attempt, and the conflicting re-mark leaves the store unchanged. -/
theorem C1_resend_despite_delivery_record :
    is_deal_sent [⟨"aaaa".toList, "t".toList, "p".toList, "u".toList⟩] ("aaaa".toList) = true ∧
    sendCount (send_to_channel (fun _ => false) true true [bdealA]
        [⟨"aaaa".toList, "t".toList, "p".toList, "u".toList⟩]).1 0 = 1 ∧
    (send_to_channel (fun _ => false) true true [bdealA]
        [⟨"aaaa".toList, "t".toList, "p".toList, "u".toList⟩]).2
      = [⟨"aaaa".toList, "t".toList, "p".toList, "u".toList⟩] :=
  ⟨by decide, by decide, by decide⟩

/-- C8: within one cycle, the dedup marking for a listing happens immediately
    after, and only after, that listing's successful channel send: in every
    trace of send_to_channel (database configured) each marking is immediately
    preceded by the same listing's send and that send did not raise — so no
    marking before a send and none for a failed send — and every listing among
    the processed prefix whose send does not raise is marked. Personalized
    delivery does not occur in this code path, so marking cannot be contingent
    on it. -/
theorem C8_mark_after_send (fails : Act → Bool) (deals : List BDeal) (store : List SentDeal)
    (hhdr : fails Act.header = false) (hne : deals.isEmpty = false) :
    marksOk fails (send_to_channel fails true true deals store).1 = true ∧
    (∀ j d, (deals.take 5)[j]? = some d → fails (actOf d j) = false →
        Act.mark j ∈ (send_to_channel fails true true deals store).1) := by
  have htr : (send_to_channel fails true true deals store).1
      = Act.header :: ((sendLoop fails true (deals.take 5) 0 store).1 ++ [Act.footer]) := by
    unfold send_to_channel
    rw [if_neg (by simp [hne]), if_neg (by simp [hhdr])]
    rfl
  constructor
  · rw [htr]
    have hloopOk := sendLoop_marksOk fails true (deals.take 5) 0 store
    have hhead := sendLoop_headNotMark fails true (deals.take 5) 0 store
    have happ : marksOk fails
        ((sendLoop fails true (deals.take 5) 0 store).1 ++ [Act.footer]) = true :=
      marksOk_append_nonmark fails Act.footer rfl _ _ (Nat.le_refl _) hloopOk
    have hnm2 : headNotMark
        ((sendLoop fails true (deals.take 5) 0 store).1 ++ [Act.footer]) = true := by
      cases hcase : (sendLoop fails true (deals.take 5) 0 store).1 with
      | nil => rfl
      | cons a tl =>
        rw [hcase] at hhead
        simpa [headNotMark] using hhead
    exact marksOk_cons_headNotMark fails Act.header _ rfl hnm2 happ
  · intro j d hj hf
    rw [htr]
    have hmem := sendLoop_mark_mem fails (deals.take 5) 0 store j d hj
      (by rw [Nat.zero_add]; exact hf)
    rw [Nat.zero_add] at hmem
    exact List.mem_cons_of_mem _ (List.mem_append_left _ hmem)

/-- Witness for C8: one deal, no failures: the trace passes the marksOk check
    and contains the marking of deal 0. -/
theorem C8_mark_after_send_witness :
    marksOk (fun _ => false) (send_to_channel (fun _ => false) true true [bdealA] []).1 = true ∧
    Act.mark 0 ∈ (send_to_channel (fun _ => false) true true [bdealA] []).1 :=
  ⟨(C8_mark_after_send (fun _ => false) [bdealA] [] rfl rfl).1,
   (C8_mark_after_send (fun _ => false) [bdealA] [] rfl rfl).2 0 bdealA (by decide) rfl⟩

/-- C7 (amended): when a send raises, the engine only logs and moves to the next
    listing: each of the first five deals receives exactly one send attempt —
    no retry with the image omitted, no text-only fallback — and a failed send
    for one deal never blocks the sends of the remaining deals, since the count
    is one for every position independently of which sends fail. -/
theorem C7_failure_isolation (fails : Act → Bool) (hasDb : Bool) (deals : List BDeal)
    (store : List SentDeal) (hhdr : fails Act.header = false) (hne : deals.isEmpty = false) :
    ∀ j, j < min 5 deals.length →
      sendCount (send_to_channel fails hasDb true deals store).1 j = 1 := by
  intro j hj
  have htr : (send_to_channel fails hasDb true deals store).1
      = Act.header :: ((sendLoop fails hasDb (deals.take 5) 0 store).1 ++ [Act.footer]) := by
    unfold send_to_channel
    rw [if_neg (by simp [hne]), if_neg (by simp [hhdr])]
    rfl
  have hcnt := sendLoop_sendCount fails hasDb (deals.take 5) 0 store j
  rw [Nat.zero_add] at hcnt
  have hjlen : j < (deals.take 5).length := by
    simpa [List.length_take] using hj
  rw [if_pos hjlen] at hcnt
  rw [htr]
  have h1 : sendCount
      (Act.header :: ((sendLoop fails hasDb (deals.take 5) 0 store).1 ++ [Act.footer])) j
      = sendCount (sendLoop fails hasDb (deals.take 5) 0 store).1 j := by
    simp [sendCount, List.countP_cons, List.countP_append, sendOf]
  rw [h1, hcnt]

/-- C7 counterexample: the claim as stated is false on the code: when the photo
    send of deal 0 raises, the trace holds exactly one send attempt for deal 0
    and no image-omitted retry or text-only fallback ever happens. -/
theorem C7_counterexample :
    (send_to_channel photoFail true true [bdealImg] []).1
      = [Act.header, Act.sendPhoto 0, Act.footer] ∧
    sendCount (send_to_channel photoFail true true [bdealImg] []).1 0 = 1 ∧
    Act.sendMsg 0 ∉ (send_to_channel photoFail true true [bdealImg] []).1 :=
  ⟨by decide, by decide, by decide⟩

/-- Witness for C7: deal 0's photo send fails, yet both deals get exactly one
    send attempt each — the failure does not block the second deal. -/
theorem C7_failure_isolation_witness :
    sendCount (send_to_channel photoFail true true [bdealImg, bdealA] []).1 0 = 1 ∧
    sendCount (send_to_channel photoFail true true [bdealImg, bdealA] []).1 1 = 1 :=
  ⟨C7_failure_isolation photoFail true [bdealImg, bdealA] [] rfl rfl 0 (by decide),
   C7_failure_isolation photoFail true [bdealImg, bdealA] [] rfl rfl 1 (by decide)⟩

/- ### Personalized delivery (spec §4.7) and scheduling (bot.py 395-398, 720-763) -/

/-- A listing as the personalized filter sees it: the parsed numeric price is
    optional, since the spec's Listing carries price_value integer-or-null. -/
structure PListing where
  title : Str
  price_value : Option Int
deriving DecidableEq, Repr

/-- Modelled from the spec: personalized (per-recipient) delivery is missing
    from src/bot.py — NotificationSystem (bot.py 400-484) contains only the
    channel path — so the recipient-side filter of spec §4.7 is modelled from
    its words: "for each active subscriber ... filter new listings by
    price_value <= recipient.max_price (and category match if the recipient has
    declared categories) and deliver a capped number of personalized matches";
    a listing with no parsed price has no price_value to compare and is not
    personalized. The category-match criterion is an abstract parameter. -/
def personal_matches (catMatch : Str → PListing → Bool) (r : UserRow)
    (listings : List PListing) (cap : Nat) : List PListing :=
  (listings.filter (fun l =>
    match l.price_value with
    | none => false
    | some p =>
        decide (p ≤ r.max_price)
          && (r.categories.isEmpty || r.categories.any (fun c => catMatch c l)))).take cap

/-- C4: a listing l is delivered personally to recipient r only if its parsed
    price exists and is at most r.max_price, and, when r declared categories,
    l matches one of them; a listing with null price_value is never sent to any
    personalized recipient. Recipients are drawn from get_all_users, which
    returns only notification-enabled rows. -/
theorem C4_budget_filter (catMatch : Str → PListing → Bool) (r : UserRow)
    (listings : List PListing) (cap : Nat) (l : PListing)
    (hl : l ∈ personal_matches catMatch r listings cap) :
    (∃ p, l.price_value = some p ∧ p ≤ r.max_price ∧
      (r.categories ≠ [] → ∃ c ∈ r.categories, catMatch c l = true)) ∧
    (∀ (now : Nat) (tbl : List UserRow) (u : UserRow),
        u ∈ get_all_users now tbl → u.notifications_enabled = true) := by
  constructor
  · unfold personal_matches at hl
    have hl2 := List.mem_of_mem_take hl
    rw [List.mem_filter] at hl2
    obtain ⟨-, hcond⟩ := hl2
    cases hp : l.price_value with
    | none =>
      rw [hp] at hcond
      simp at hcond
    | some p =>
      rw [hp] at hcond
      dsimp only at hcond
      rw [Bool.and_eq_true] at hcond
      obtain ⟨hple, hcat⟩ := hcond
      refine ⟨p, rfl, by simpa using hple, ?_⟩
      intro hne
      have hemp : r.categories.isEmpty = false := by
        cases hcats : r.categories with
        | nil => exact absurd hcats hne
        | cons x xs => rfl
      rw [hemp, Bool.false_or] at hcat
      obtain ⟨c, hc, hm⟩ := List.any_eq_true.mp hcat
      exact ⟨c, hc, hm⟩
  · intro now tbl u hu
    unfold get_all_users at hu
    rw [List.mem_filter, Bool.and_eq_true] at hu
    exact hu.2.1

/-- Witness for C4: a concrete in-budget listing passes the filter of a
    recipient with one declared category; the theorem is applied to it. -/
theorem C4_budget_filter_witness :
    (∃ p, (PListing.mk ("Echo Dot".toList) (some 29)).price_value = some p ∧
        p ≤ bobRow.max_price ∧
        (bobRow.categories ≠ [] →
          ∃ c ∈ bobRow.categories,
            (fun (_ : Str) (_ : PListing) => true) c
              (PListing.mk ("Echo Dot".toList) (some 29)) = true)) ∧
    (∀ (now : Nat) (tbl : List UserRow) (u : UserRow),
        u ∈ get_all_users now tbl → u.notifications_enabled = true) :=
  C4_budget_filter (fun _ _ => true) bobRow
    [PListing.mk ("Echo Dot".toList) (some 29), PListing.mk ("TV".toList) none]
    3 (PListing.mk ("Echo Dot".toList) (some 29)) (by decide)

/-- One registration step of the program's startup sequence. -/
inductive StartupAct where
  | addCommand (name : Str)
  | addMessageHandler
  | addCallbackHandler
  | runPolling
  | schedulerAddJob
  | schedulerStart
deriving DecidableEq, Repr

/-- Shallow embedding of the startup sequence of bot.py: the module creates the
    scheduler object (bot.py 398) and main (bot.py 720-763) registers six
    command handlers, the text-message handler and the callback handler, then
    starts polling. No scheduler.add_job and no scheduler.start call occurs
    anywhere in bot.py. -/
def main_startup : List StartupAct :=
  [ StartupAct.addCommand ("start".toList), StartupAct.addCommand ("offerte".toList),
    StartupAct.addCommand ("cerca".toList), StartupAct.addCommand ("notifiche".toList),
    StartupAct.addCommand ("canale".toList), StartupAct.addCommand ("testdb".toList),
    StartupAct.addMessageHandler, StartupAct.addCallbackHandler, StartupAct.runPolling ]

/-- Does this startup step touch the scheduler (register or start a job)? -/
def isSchedulerOp : StartupAct → Bool
  | StartupAct.schedulerAddJob => true
  | StartupAct.schedulerStart => true
  | _ => false

/-- C9 (code evidence): the startup sequence performs no scheduler operation:
    no job is registered on the AsyncIOScheduler created at bot.py 398 and the
    scheduler is never started, so no periodic timer ever triggers a broadcast
    cycle, contrary to the claim (and to the bot's own "every 3 hours" texts). -/
theorem C9_no_scheduled_job :
    main_startup.countP isSchedulerOp = 0 ∧ main_startup.length = 9 :=
  ⟨by decide, by decide⟩

set_option maxRecDepth 40000 in
example : md5hex [] = "d41d8cd98f00b204e9800998ecf8427e".toList := by decide

set_option maxRecDepth 40000 in
example : md5hex ("abc".toList.flatMap utf8Encode)
    = "900150983cd24fb0d6963f7d28e17f72".toList := by decide

set_option maxRecDepth 40000 in
example : generate_deal_hash ("Echo Dot".toList) ("€29".toList)
    = "48d3453474281ad8".toList := by decide
